import Mathlib

/-!
Verification development for the replication state-machine layer declared in
`src/include/raft_server.h` (class `ReplicationState`, the braft state machine
of the typesense repository).

The header declares the interface and defines several members inline
(`has_leader_term`, `is_ready`, `shutdown`, `join`, `on_leader_start`,
`on_leader_stop`); those are embedded directly from the source.  The bodies of
`on_apply`, `on_snapshot_save`, `on_snapshot_load`, `write`, `write_to_leader`
and `ReplicationClosure::Run` live in a translation unit that is not part of
the source tree here; where a property depends on such a body, the definition
is modelled from the specification and is marked `Modelled from the spec:`.
-/

namespace RaftServer

/-! ### Operations and the Store collaborator -/

/-- One deserialized client operation carried by a committed log entry.
`malformed` stands for an entry whose payload cannot be deserialized or whose
application hits a storage-engine fault. -/
inductive Op where
  | put (key value : String)
  | noop
  | malformed
  deriving DecidableEq, Repr

/-- One committed unit of the replicated log: a log index plus the operation. -/
structure Entry where
  index : Nat
  op : Op
  deriving DecidableEq, Repr

/-- The Store collaborator, reduced to its observable key/value content. -/
structure Store where
  data : List (String × String)
  deriving DecidableEq, Repr

/-- Modelled from the spec: `Store::apply(operation) -> result` (§6).  A put
records the pair; a no-op leaves the store unchanged; a malformed operation or
storage fault yields `none` (failure). -/
def Store.applyOp (s : Store) (op : Op) : Option Store :=
  match op with
  | .put k v => some { data := (k, v) :: s.data }
  | .noop => some s
  | .malformed => none

/-- Total variant of `Store.applyOp` on the success path (used only to state
what the store holds after a successful application). -/
def Store.applyOk (s : Store) (op : Op) : Store :=
  (s.applyOp op).getD s

/-! ### Apply Pipeline (`ReplicationState::on_apply`) -/

/-- State visible to the Apply Pipeline: the Store and the AppliedIndex
counter that only the pipeline advances. -/
structure ApplyState where
  store : Store
  appliedIndex : Nat
  deriving DecidableEq, Repr

/-- Outcome of running the Apply Pipeline over a batch of committed entries:
either every entry applied (`ok`), or the process halted at the first entry
whose application failed (`halted`), keeping the state reached so far. -/
inductive ApplyOutcome where
  | ok (s : ApplyState)
  | halted (s : ApplyState) (failed : Entry)
  deriving DecidableEq, Repr

/-- Modelled from the spec: `ReplicationState::on_apply` (§4.1) consumes the
ordered committed-entry iterator one entry at a time, in commit order: each
entry is deserialized, applied to the Store, and AppliedIndex is advanced
exactly once; an apply failure is fatal, so the pipeline halts at the failing
entry instead of skipping it. -/
def onApply (s : ApplyState) : List Entry → ApplyOutcome
  | [] => .ok s
  | e :: rest =>
    match s.store.applyOp e.op with
    | some store' => onApply { store := store', appliedIndex := s.appliedIndex + 1 } rest
    | none => .halted s e

/-- The sequence of intermediate states produced while applying a batch on the
success path, one state per entry (used to state one-at-a-time advancement). -/
def applyTrace (s : ApplyState) : List Entry → List ApplyState
  | [] => []
  | e :: rest =>
    let s' : ApplyState := { store := s.store.applyOk e.op, appliedIndex := s.appliedIndex + 1 }
    s' :: applyTrace s' rest

/-! ### Catch-Up Monitor (`catchup_min_sequence_diff`, `caught_up`, `is_ready`) -/

/-- Catch-up configuration and flag of `ReplicationState`: the two `const`
thresholds passed at construction and the atomic `caught_up` flag
(raft_server.h lines 109-111). -/
structure CatchUpState where
  catchup_min_sequence_diff : Nat
  catch_up_threshold_percentage : Nat
  caught_up : Bool
  deriving DecidableEq, Repr

/-- `ReplicationState::is_ready` from raft_server.h: returns the `caught_up`
flag. -/
def CatchUpState.is_ready (s : CatchUpState) : Bool :=
  s.caught_up

/-- Modelled from the spec: the readiness computation (§4.4).  With
`gap = leaderKnownSequence - localAppliedSequence`, the node is caught up when
`gap <= catchupMinSequenceDiff` or when the ratio
`localAppliedSequence / leaderKnownSequence`, taken as a percentage, is at
least `catchUpThresholdPercentage` (stated here in exact arithmetic as
`100 * local >= pct * leader`). -/
def computeCaughtUp (localSeq leaderSeq diff pct : Nat) : Bool :=
  decide (leaderSeq - localSeq ≤ diff) || decide (pct * leaderSeq ≤ 100 * localSeq)

/-- Modelled from the spec: the flag is recomputed on every applied entry
(§4.4, §8), overwriting `caught_up` with the fresh comparison of the local
applied sequence against the leader-known sequence. -/
def CatchUpState.onAppliedEntry (s : CatchUpState) (localSeq leaderSeq : Nat) :
    CatchUpState :=
  { s with caught_up := computeCaughtUp localSeq leaderSeq s.catchup_min_sequence_diff s.catch_up_threshold_percentage }

/-! ### Completion Handles (`ReplicationClosure`) and shutdown resolution -/

/-- The four terminal results a Completion Handle can be resolved with (§8:
success, leadership-lost, shutdown/unavailable, error). -/
inductive WriteResult where
  | success
  | leadershipLost
  | shutdownUnavailable
  | error
  deriving DecidableEq, Repr

/-- Bookkeeping for in-flight writes: handles of accepted writes still waiting
for commit, handles already resolved (with their result, in resolution order),
and the process-wide shut-down flag. -/
structure PendingState where
  pending : List Nat
  resolved : List (Nat × WriteResult)
  shutDown : Bool
  deriving DecidableEq, Repr

/-- Events acting on the set of in-flight Completion Handles. -/
inductive WEvent where
  | accept (h : Nat)
  | commitOk (h : Nat)
  | fault (h : Nat)
  | loseLeadership
  | shutdownReq
  deriving DecidableEq, Repr

/-- Modelled from the spec: the lifecycle of Completion Handles (§4.5, §7d).
A write is accepted only when the node is not shutting down and the handle is
fresh; a committed entry resolves its handle with success; an apply-path error
resolves it with `error`; losing leadership resolves every pending handle with
`leadershipLost`; `shutdown` sets the process-wide flag and unblocks every
still-waiting handle with an unavailable result rather than leaving it
pending. -/
def stepW (s : PendingState) : WEvent → PendingState
  | .accept h =>
    if s.shutDown ∨ h ∈ s.pending ∨ h ∈ s.resolved.map Prod.fst then s
    else { s with pending := s.pending ++ [h] }
  | .commitOk h =>
    if h ∈ s.pending then
      { s with pending := s.pending.filter (· ≠ h),
               resolved := s.resolved ++ [(h, .success)] }
    else s
  | .fault h =>
    if h ∈ s.pending then
      { s with pending := s.pending.filter (· ≠ h),
               resolved := s.resolved ++ [(h, .error)] }
    else s
  | .loseLeadership =>
    { s with pending := [],
             resolved := s.resolved ++ s.pending.map (fun h => (h, .leadershipLost)) }
  | .shutdownReq =>
    { shutDown := true,
      pending := [],
      resolved := s.resolved ++ s.pending.map (fun h => (h, .shutdownUnavailable)) }

/-- Run the Completion Handle system from the initial state (no writes in
flight, not shut down). -/
def runW (evs : List WEvent) : PendingState :=
  evs.foldl stepW { pending := [], resolved := [], shutDown := false }

/-! ### Snapshot Coordinator (`on_snapshot_save` / `on_snapshot_load`) -/

/-- A published snapshot: the Store checkpoint plus the small metadata file
recording the applied index (and, when present, an external override path). -/
structure Snapshot where
  storeData : List (String × String)
  appliedIndex : Nat
  extSnapshotPath : Option String
  deriving DecidableEq, Repr

/-- Modelled from the spec: `ReplicationState::on_snapshot_save` (§4.3)
checkpoints the Store into the snapshot directory and writes metadata
recording the applied index and the external override path, if any. -/
def on_snapshot_save (s : ApplyState) (extPath : Option String) : Snapshot :=
  { storeData := s.store.data
    appliedIndex := s.appliedIndex
    extSnapshotPath := extPath }

/-- Modelled from the spec: `ReplicationState::on_snapshot_load` (§4.3)
reopens the Store against the snapshot's data directory and sets AppliedIndex
to the value recorded in the snapshot's metadata. -/
def on_snapshot_load (snap : Snapshot) : ApplyState :=
  { store := { data := snap.storeData }
    appliedIndex := snap.appliedIndex }

/-! ### Write path (`write`, `write_to_leader`, `get_leader_url_path`) -/

/-- A client request as carried by the Request Channel. -/
structure HttpReq where
  method : String
  path : String
  body : String
  deriving DecidableEq, Repr

/-- Modelled from the spec: serialization of a request into a log entry
payload (§4.2). -/
def serializeReq (r : HttpReq) : String :=
  r.method ++ " " ++ r.path ++ " " ++ r.body

/-- Modelled from the spec: `ReplicationState::get_leader_url_path` builds the
leader's API URL from its resolved address, the request path and the protocol
chosen by the SSL mapping. -/
def get_leader_url_path (leaderAddr path protocol : String) : String :=
  protocol ++ "://" ++ leaderAddr ++ path

/-- The node state the write path consults: the atomic leader term, the peer
set with the leader's resolved API address (if known), and the SSL mode. -/
structure NodeState where
  leaderTerm : Int
  leaderApiAddr : Option String
  api_uses_ssl : Bool
  deriving DecidableEq, Repr

/-- What one call to `write` does with an accepted request. -/
inductive WriteAction where
  | submitLocal (entry : String) (handle : Nat)
  | forward (url : String)
  | failNoLeader
  deriving DecidableEq, Repr

/-- Modelled from the spec: `ReplicationState::write_to_leader` (§4.2)
resolves the leader's API endpoint from the peer set plus the port/SSL mapping
and forwards the request through the Request Channel; when no leader is known
it reports the error. -/
def write_to_leader (st : NodeState) (req : HttpReq) : WriteAction :=
  match st.leaderApiAddr with
  | some addr =>
    .forward (get_leader_url_path addr req.path (if st.api_uses_ssl then "https" else "http"))
  | none => .failNoLeader

/-- Modelled from the spec: `ReplicationState::write` (§4.2).  If this node is
leader (term > 0) the request is serialized into an entry and submitted to the
Consensus Core with a registered Completion Handle; otherwise the request is
forwarded to the leader via `write_to_leader`. -/
def write (st : NodeState) (req : HttpReq) (handle : Nat) : WriteAction :=
  if st.leaderTerm > 0 then
    .submitLocal (serializeReq req) handle
  else
    write_to_leader st req

/-- Modelled from the spec: the synchronous result seen by the caller of
`write` (§4.2, §5).  `applyResolve` stands for blocking on the Completion
Handle until the Apply Pipeline resolves it; `channel` stands for the Request
Channel's forwarding call, whose result is returned as-is. -/
def writeResponse (st : NodeState) (req : HttpReq) (handle : Nat)
    (applyResolve : Nat → String) (channel : String → String) : String :=
  match write st req handle with
  | .submitLocal _ h => applyResolve h
  | .forward url => channel url
  | .failNoLeader => "leader not found"

/-! ### Leader term (`has_leader_term`, `on_leader_start`, `on_leader_stop`) -/

/-- `ReplicationState::has_leader_term` from raft_server.h: the loaded
`leader_term` is greater than 0. -/
def has_leader_term (leader_term : Int) : Bool :=
  leader_term > 0

/-- Leadership-change callbacks delivered by the Consensus Core, the only
mutators of `leader_term`. -/
inductive LeaderEvent where
  | start (t : Int)
  | stop
  deriving DecidableEq, Repr

/-- The `leader_term` store performed by the two callbacks in raft_server.h:
`on_leader_start(term)` stores `term`; `on_leader_stop` stores `-1`. -/
def leaderTermAfter : Int → LeaderEvent → Int
  | _, .start t => t
  | _, .stop => -1

/-- `leader_term` after a sequence of leadership-change callbacks, starting
from the non-leader value `-1` (modelled from the spec for the constructor's
initial value: the term is `-1` whenever the node does not believe itself
leader). -/
def runLeaderEvents (evs : List LeaderEvent) : Int :=
  evs.foldl leaderTermAfter (-1)

/-- The node believes itself leader exactly when the most recent
leadership-change callback was `on_leader_start`. -/
def believesLeader (evs : List LeaderEvent) : Bool :=
  match evs.getLast? with
  | some (.start _) => true
  | _ => false

/-! ### Dummy INIT_SNAPSHOT write on leader start -/

/-- An externally visible action taken by `on_leader_start`. -/
inductive LeaderStartAction where
  | dummyWrite (method : String) (path : String) (body : String)
  deriving DecidableEq, Repr

/-- `ReplicationState::on_leader_start` from raft_server.h, as the pair of the
term it stores and the writes it issues: the term is stored, and if and only
if `create_init_db_snapshot` is set, a dummy `POST /INIT_SNAPSHOT` write is
issued to force the snapshot trigger. -/
def on_leader_start (create_init_db_snapshot : Bool) (term : Int) :
    Int × List LeaderStartAction :=
  (term,
    if create_init_db_snapshot then
      [.dummyWrite "POST" "/INIT_SNAPSHOT" "INIT_SNAPSHOT"]
    else [])

/-! ### Lifecycle (`shutdown`, `join`) -/

/-- The braft node handle owned by `ReplicationState` (identified so that the
calls made on it can be observed). -/
structure NodeHandle where
  id : Nat
  deriving DecidableEq, Repr

/-- The lifecycle state: the nullable `node` pointer and the process-wide
`shut_down` flag. -/
structure LifecycleState where
  node : Option NodeHandle
  shut_down : Bool
  deriving DecidableEq, Repr

/-- Calls `ReplicationState` makes on the braft node handle. -/
inductive NodeCall where
  | nodeShutdown (id : Nat)
  | nodeJoin (id : Nat)
  | nodeDelete (id : Nat)
  deriving DecidableEq, Repr

/-- `ReplicationState::shutdown` from raft_server.h: set `shut_down := true`;
if the node handle is non-null, call `node->shutdown`.  Returns the new state
together with the calls made on the handle. -/
def shutdown_fn (s : LifecycleState) : LifecycleState × List NodeCall :=
  match s.node with
  | some n => ({ s with shut_down := true }, [.nodeShutdown n.id])
  | none => ({ s with shut_down := true }, [])

/-- `ReplicationState::join` from raft_server.h: under the lock, if the node
handle is non-null, block on `node->join()`, delete the handle and set it to
null; otherwise do nothing.  Returns the new state together with the calls
made on the handle. -/
def join_fn (s : LifecycleState) : LifecycleState × List NodeCall :=
  match s.node with
  | some n => ({ s with node := none }, [.nodeJoin n.id, .nodeDelete n.id])
  | none => (s, [])

/-! ### Helper lemmas -/

/-- Applying any operation other than a malformed one succeeds and yields the
store computed by the total success-path function. -/
theorem applyOp_eq_some (s : Store) (op : Op) (h : op ≠ Op.malformed) :
    s.applyOp op = some (s.applyOk op) := by
  cases op <;> simp_all [Store.applyOp, Store.applyOk]

/-- The Apply Pipeline applied to a batch of well-formed entries folds the
store in order and adds the batch length to the applied index. -/
theorem onApply_ok_of_wellFormed (s : ApplyState) (entries : List Entry)
    (h : ∀ e ∈ entries, e.op ≠ Op.malformed) :
    onApply s entries =
      ApplyOutcome.ok
        { store := entries.foldl (fun st e => st.applyOk e.op) s.store
          appliedIndex := s.appliedIndex + entries.length } := by
  induction entries generalizing s with
  | nil => simp [onApply]
  | cons e rest ih =>
    have he : e.op ≠ Op.malformed := h e (List.mem_cons_self e rest)
    have hrest : ∀ e' ∈ rest, e'.op ≠ Op.malformed := fun e' he' => h e' (List.mem_cons_of_mem e he')
    simp only [onApply, applyOp_eq_some s.store e.op he, List.foldl_cons, List.length_cons]
    rw [ih _ hrest]
    simp only [ApplyOutcome.ok.injEq, ApplyState.mk.injEq, true_and, and_true, eq_self_iff_true]
    omega

/-- Successive states of the success-path trace advance the applied index by
exactly one per entry. -/
theorem applyTrace_steps (s : ApplyState) (entries : List Entry) :
    List.Chain' (fun a b => b.appliedIndex = a.appliedIndex + 1) (s :: applyTrace s entries) := by
  induction entries generalizing s with
  | nil => simp [applyTrace]
  | cons e rest ih => exact List.Chain'.cons rfl (ih _)

/-! ### Claim theorems -/

/-- C1: for every batch of committed entries delivered to `on_apply`, the
entries are applied to the Store strictly in commit order (the final store is
the in-order fold of the batch), one at a time with no reordering and no
skipping, and the AppliedIndex counter is advanced exactly once per entry
(each intermediate state increments it by one, and the final value is the
initial value plus the number of entries), so it is monotonically
non-decreasing. -/
theorem on_apply_in_commit_order (s : ApplyState) (entries : List Entry)
    (h : ∀ e ∈ entries, e.op ≠ Op.malformed) :
    onApply s entries =
      ApplyOutcome.ok
        { store := entries.foldl (fun st e => st.applyOk e.op) s.store
          appliedIndex := s.appliedIndex + entries.length }
    ∧ List.Chain' (fun a b => b.appliedIndex = a.appliedIndex + 1)
        (s :: applyTrace s entries)
    ∧ List.Chain' (fun a b => a.appliedIndex ≤ b.appliedIndex)
        (s :: applyTrace s entries) :=
  ⟨onApply_ok_of_wellFormed s entries h, applyTrace_steps s entries,
    (applyTrace_steps s entries).imp (fun hab => by omega)⟩

/-- C1 witness: a concrete two-entry batch is applied in order and advances
the applied index from 5 to 7. -/
theorem on_apply_in_commit_order_witness :
    onApply { store := { data := [] }, appliedIndex := 5 }
        [{ index := 6, op := Op.put "x" "1" }, { index := 7, op := Op.put "y" "2" }] =
      ApplyOutcome.ok
        { store := { data := [("y", "2"), ("x", "1")] }, appliedIndex := 7 } := by
  have := on_apply_in_commit_order
    { store := { data := [] }, appliedIndex := 5 }
    [{ index := 6, op := Op.put "x" "1" }, { index := 7, op := Op.put "y" "2" }]
    (by decide)
  exact this.1.trans (by decide)

/-- C2: when applying a committed entry fails (malformed entry or Store
fault), `on_apply` is fatal at that entry: the batch halts exactly at the
failing entry, the prefix before it is applied in order, the applied index is
advanced only for the prefix, and no entry is skipped (nothing after the
failing entry is applied and the pipeline does not continue). -/
theorem on_apply_fatal_on_failure (s : ApplyState) (pre post : List Entry) (bad : Entry)
    (hpre : ∀ e ∈ pre, e.op ≠ Op.malformed) (hbad : bad.op = Op.malformed) :
    onApply s (pre ++ bad :: post) =
      ApplyOutcome.halted
        { store := pre.foldl (fun st e => st.applyOk e.op) s.store
          appliedIndex := s.appliedIndex + pre.length } bad := by
  induction pre generalizing s with
  | nil => simp [onApply, Store.applyOp, hbad]
  | cons e rest ih =>
    have he : e.op ≠ Op.malformed := hpre e (List.mem_cons_self e rest)
    have hrest : ∀ e' ∈ rest, e'.op ≠ Op.malformed :=
      fun e' he' => hpre e' (List.mem_cons_of_mem e he')
    simp only [List.cons_append, onApply, applyOp_eq_some s.store e.op he,
      List.foldl_cons, List.length_cons, List.append_eq]
    rw [ih _ hrest]
    simp only [ApplyOutcome.halted.injEq, ApplyState.mk.injEq, true_and, and_true,
      eq_self_iff_true]
    omega

/-- C2 witness: a concrete batch with a malformed second entry halts at that
entry with only the first entry applied. -/
theorem on_apply_fatal_on_failure_witness :
    onApply { store := { data := [] }, appliedIndex := 5 }
        [{ index := 6, op := Op.put "x" "1" }, { index := 7, op := Op.malformed },
         { index := 8, op := Op.put "y" "2" }] =
      ApplyOutcome.halted
        { store := { data := [("x", "1")] }, appliedIndex := 6 }
        { index := 7, op := Op.malformed } := by
  have := on_apply_fatal_on_failure
    { store := { data := [] }, appliedIndex := 5 }
    [{ index := 6, op := Op.put "x" "1" }]
    [{ index := 8, op := Op.put "y" "2" }]
    { index := 7, op := Op.malformed }
    (by decide) (by decide)
  exact this.trans (by decide)

/-- C3: after the readiness flag is recomputed on an applied entry with local
applied sequence `L` and leader-known sequence `K`, `is_ready` is true exactly
when the gap `K - L` is at most `catchup_min_sequence_diff` or the ratio
`L / K` (as a percentage, in exact arithmetic `100 * L >= pct * K`) reaches
`catch_up_threshold_percentage`; it is false exactly while the gap exceeds the
threshold and the ratio falls short; and the recomputation ignores the
previous flag, so readiness flips the instant either condition is
satisfied. -/
theorem is_ready_iff_caught_up (s : CatchUpState) (L K : Nat) :
    ((s.onAppliedEntry L K).is_ready = true ↔
      (K - L ≤ s.catchup_min_sequence_diff ∨
        s.catch_up_threshold_percentage * K ≤ 100 * L))
    ∧ ((s.onAppliedEntry L K).is_ready = false ↔
      (s.catchup_min_sequence_diff < K - L ∧
        100 * L < s.catch_up_threshold_percentage * K))
    ∧ (∀ b : Bool,
        ({ s with caught_up := b } : CatchUpState).onAppliedEntry L K =
          s.onAppliedEntry L K) := by
  refine ⟨?_, ?_, fun b => rfl⟩
  · simp [CatchUpState.onAppliedEntry, CatchUpState.is_ready, computeCaughtUp,
      Decidable.or_iff_not_imp_left]
  · simp [CatchUpState.onAppliedEntry, CatchUpState.is_ready, computeCaughtUp,
      Decidable.or_iff_not_imp_left]
    omega

/-- C5: a successful snapshot save recording applied index `N` followed
immediately by a snapshot load (no entries applied in between) restores the
Store from the published snapshot and sets AppliedIndex to exactly `N`, the
value recorded in the snapshot's metadata. -/
theorem snapshot_save_load_roundtrip (s : ApplyState) (extPath : Option String) :
    (on_snapshot_save s extPath).appliedIndex = s.appliedIndex
    ∧ on_snapshot_load (on_snapshot_save s extPath) = s
    ∧ (on_snapshot_load (on_snapshot_save s extPath)).appliedIndex =
        (on_snapshot_save s extPath).appliedIndex := by
  refine ⟨rfl, ?_, rfl⟩
  cases s with
  | mk store idx => cases store with
    | mk data => rfl

/-- Handles the system is aware of: still pending, or already resolved. -/
def tracked (s : PendingState) : List Nat :=
  s.pending ++ s.resolved.map Prod.fst

/-- Mapping first projections over resolutions of a batch of handles gives
back the handles. -/
theorem map_fst_resolveAll (pending : List Nat) (resolved : List (Nat × WriteResult))
    (c : WriteResult) :
    (resolved ++ pending.map (fun h => (h, c))).map Prod.fst =
      resolved.map Prod.fst ++ pending := by
  simp [Function.comp_def]

/-- Resolving one pending handle keeps the tracked handles free of
duplicates. -/
theorem nodup_resolve_one (pending : List Nat) (resolved : List (Nat × WriteResult))
    (h0 : Nat) (r : WriteResult) (hmem : h0 ∈ pending)
    (h : (pending ++ resolved.map Prod.fst).Nodup) :
    (pending.filter (· ≠ h0) ++ (resolved ++ [(h0, r)]).map Prod.fst).Nodup := by
  have hsplit : (resolved ++ [(h0, r)]).map Prod.fst = resolved.map Prod.fst ++ [h0] := by
    simp
  rw [List.nodup_append] at h
  obtain ⟨hp, hr, hd⟩ := h
  rw [List.disjoint_left] at hd
  rw [hsplit, List.nodup_append, List.nodup_append]
  refine ⟨hp.filter _, ⟨hr, List.nodup_singleton h0, ?_⟩, ?_⟩
  · rw [List.disjoint_left]
    intro a ha hs
    rw [List.mem_singleton] at hs
    subst hs
    exact hd hmem ha
  · rw [List.disjoint_left]
    intro a ha
    rw [List.mem_filter] at ha
    obtain ⟨hap, hane⟩ := ha
    rw [List.mem_append, List.mem_singleton]
    rintro (haR | rfl)
    · exact hd hap haR
    · exact absurd rfl (of_decide_eq_true hane)

/-- Resolving every pending handle at once keeps the tracked handles free of
duplicates. -/
theorem nodup_resolve_all (pending : List Nat) (resolved : List (Nat × WriteResult))
    (c : WriteResult) (h : (pending ++ resolved.map Prod.fst).Nodup) :
    ((resolved ++ pending.map (fun h => (h, c))).map Prod.fst).Nodup := by
  rw [map_fst_resolveAll]
  exact List.perm_append_comm.nodup h

/-- One step of the Completion Handle system keeps the tracked handles free of
duplicates. -/
theorem stepW_tracked_nodup (s : PendingState) (e : WEvent)
    (h : (tracked s).Nodup) : (tracked (stepW s e)).Nodup := by
  rcases s with ⟨pending, resolved, sd⟩
  cases e with
  | accept h0 =>
    simp only [stepW]
    split
    · exact h
    · rename_i hc
      push_neg at hc
      simp only [tracked, List.nodup_append, List.disjoint_left] at h ⊢
      aesop
  | commitOk h0 =>
    simp only [stepW]
    split
    · rename_i hmem
      exact nodup_resolve_one pending resolved h0 WriteResult.success hmem h
    · exact h
  | fault h0 =>
    simp only [stepW]
    split
    · rename_i hmem
      exact nodup_resolve_one pending resolved h0 WriteResult.error hmem h
    · exact h
  | loseLeadership =>
    simpa only [tracked, stepW, List.nil_append] using
      nodup_resolve_all pending resolved WriteResult.leadershipLost h
  | shutdownReq =>
    simpa only [tracked, stepW, List.nil_append] using
      nodup_resolve_all pending resolved WriteResult.shutdownUnavailable h

/-- One step of the Completion Handle system never forgets a tracked handle:
a handle that is pending or resolved stays pending or resolved. -/
theorem stepW_tracked_mono (s : PendingState) (e : WEvent) (h0 : Nat)
    (h : h0 ∈ tracked s) : h0 ∈ tracked (stepW s e) := by
  rcases s with ⟨pending, resolved, sd⟩
  cases e with
  | accept h1 =>
    simp only [stepW]
    split
    · exact h
    · simp only [tracked, List.mem_append] at h ⊢
      aesop
  | commitOk h1 =>
    simp only [stepW]
    split
    · simp only [tracked, List.mem_append, List.mem_filter, List.mem_map,
        List.map_append, List.mem_singleton, decide_eq_true_eq, List.map_cons,
        List.map_nil] at h ⊢
      by_cases he : h0 = h1
      · subst he
        simp
      · aesop
    · exact h
  | fault h1 =>
    simp only [stepW]
    split
    · simp only [tracked, List.mem_append, List.mem_filter, List.mem_map,
        List.map_append, List.mem_singleton, decide_eq_true_eq, List.map_cons,
        List.map_nil] at h ⊢
      by_cases he : h0 = h1
      · subst he
        simp
      · aesop
    · exact h
  | loseLeadership =>
    simp only [tracked, stepW, List.map_append, List.map_map, List.nil_append,
      List.mem_append] at h ⊢
    aesop
  | shutdownReq =>
    simp only [tracked, stepW, List.map_append, List.map_map, List.nil_append,
      List.mem_append] at h ⊢
    aesop

/-- Folding the Completion Handle system preserves duplicate-freedom of the
tracked handles. -/
theorem foldl_stepW_nodup (evs : List WEvent) (s : PendingState)
    (h : (tracked s).Nodup) : (tracked (evs.foldl stepW s)).Nodup := by
  induction evs generalizing s with
  | nil => exact h
  | cons e rest ih => exact ih _ (stepW_tracked_nodup s e h)

/-- Folding the Completion Handle system never forgets a tracked handle. -/
theorem foldl_stepW_mono (evs : List WEvent) (s : PendingState) (h0 : Nat)
    (h : h0 ∈ tracked s) : h0 ∈ tracked (evs.foldl stepW s) := by
  induction evs generalizing s with
  | nil => exact h
  | cons e rest ih => exact ih _ (stepW_tracked_mono s e h0 h)

/-- Running an extended event list continues from the shorter run's state. -/
theorem runW_append (evs more : List WEvent) :
    runW (evs ++ more) = more.foldl stepW (runW evs) := by
  simp [runW, List.foldl_append]

/-- C4: every accepted write's Completion Handle is resolved at most once (the
pending and resolved handle lists stay duplicate-free and disjoint), a handle
once accepted is never dropped (it stays pending or resolved under any further
events), and when `shutdown` is invoked while writes are pending commit, no
handle is left pending: the shut-down flag is set and every still-waiting
handle is unblocked with the unavailable result.  Together with the typing of
`WriteResult`, every resolution carries exactly one of success,
leadership-lost, shutdown-unavailable or error. -/
theorem completion_handle_resolved_exactly_once (evs : List WEvent) :
    ((runW evs).pending ++ (runW evs).resolved.map Prod.fst).Nodup
    ∧ (runW (evs ++ [WEvent.shutdownReq])).pending = []
    ∧ (runW (evs ++ [WEvent.shutdownReq])).shutDown = true
    ∧ (∀ h, h ∈ (runW evs).pending →
        (h, WriteResult.shutdownUnavailable) ∈ (runW (evs ++ [WEvent.shutdownReq])).resolved)
    ∧ (∀ more h, h ∈ (runW evs).pending ∨ h ∈ (runW evs).resolved.map Prod.fst →
        h ∈ (runW (evs ++ more)).pending ∨
          h ∈ (runW (evs ++ more)).resolved.map Prod.fst) := by
  refine ⟨?_, ?_, ?_, ?_, ?_⟩
  · exact foldl_stepW_nodup evs _ (by simp [tracked, runW])
  · rw [runW_append]
    simp [stepW]
  · rw [runW_append]
    simp [stepW]
  · intro h hm
    rw [runW_append]
    simp only [List.foldl_cons, List.foldl_nil, stepW, List.mem_append, List.mem_map]
    exact Or.inr ⟨h, hm, rfl⟩
  · intro more h hm
    have hmem : h ∈ tracked (runW evs) := by
      simpa [tracked, List.mem_append] using hm
    have := foldl_stepW_mono more (runW evs) h hmem
    rw [runW_append]
    simpa [tracked, List.mem_append] using this

/-- C4 witness: with handles 1 and 2 accepted and handle 1 committed, handle 2
is still pending, and a shutdown resolves it with the unavailable result. -/
theorem completion_handle_resolved_exactly_once_witness :
    (2 ∈ (runW [WEvent.accept 1, WEvent.accept 2, WEvent.commitOk 1]).pending)
    ∧ (2, WriteResult.shutdownUnavailable) ∈
        (runW ([WEvent.accept 1, WEvent.accept 2, WEvent.commitOk 1] ++
          [WEvent.shutdownReq])).resolved :=
  ⟨by decide,
    (completion_handle_resolved_exactly_once
      [WEvent.accept 1, WEvent.accept 2, WEvent.commitOk 1]).2.2.2.1 2 (by decide)⟩

/-- The stored leader term after a trace of leadership callbacks depends only
on the last callback: a final `on_leader_start t` leaves `t`, anything else
leaves `-1`. -/
theorem runLeaderEvents_eq_last (evs : List LeaderEvent) :
    runLeaderEvents evs =
      (match evs.getLast? with
        | some (.start t) => t
        | _ => -1) := by
  induction evs using List.reverseRecOn with
  | nil => rfl
  | append_singleton rest e ih =>
    rw [runLeaderEvents, List.foldl_append, List.getLast?_concat]
    cases e <;> rfl

/-- C7: starting from the non-leader value `-1`, with leader terms delivered
by the Consensus Core positive, the stored leader term is positive exactly
while the node believes itself leader (the last leadership callback was
`on_leader_start`) and `-1` otherwise; `has_leader_term` returns true if and
only if the stored value is greater than 0, hence exactly while the node
believes itself leader; and a final `on_leader_start t` stores exactly `t`. -/
theorem leader_term_positive_iff_leader (evs : List LeaderEvent)
    (hpos : ∀ t : Int, LeaderEvent.start t ∈ evs → 0 < t) :
    (has_leader_term (runLeaderEvents evs) = believesLeader evs)
    ∧ (0 < runLeaderEvents evs ↔ believesLeader evs = true)
    ∧ (believesLeader evs = false → runLeaderEvents evs = -1)
    ∧ (∀ t : Int, evs.getLast? = some (.start t) → runLeaderEvents evs = t) := by
  rw [runLeaderEvents_eq_last, believesLeader]
  rcases hlast : evs.getLast? with - | e
  · simp [has_leader_term]
  · cases e with
    | start t =>
      have hmem : LeaderEvent.start t ∈ evs := by
        rcases evs with - | ⟨e0, rest⟩
        · simp at hlast
        · have hne : e0 :: rest ≠ [] := by simp
          rw [List.getLast?_eq_getLast_of_ne_nil hne] at hlast
          injection hlast with h1
          have hmem' := List.getLast_mem hne
          rwa [h1] at hmem'
      have ht : 0 < t := hpos t hmem
      simp only [has_leader_term]
      refine ⟨by simp [ht, decide_eq_true_eq], by simp [ht], by simp, ?_⟩
      intro t' ht'
      simp only [Option.some.injEq, LeaderEvent.start.injEq] at ht'
      omega
    | stop => simp [has_leader_term]

/-- C7 witness: after starting leadership at term 2, stepping down and
starting again at term 3, the stored term is positive and `has_leader_term`
agrees with believing itself leader. -/
theorem leader_term_positive_iff_leader_witness :
    has_leader_term
        (runLeaderEvents [LeaderEvent.start 2, LeaderEvent.stop, LeaderEvent.start 3]) =
      believesLeader [LeaderEvent.start 2, LeaderEvent.stop, LeaderEvent.start 3] :=
  (leader_term_positive_iff_leader
    [LeaderEvent.start 2, LeaderEvent.stop, LeaderEvent.start 3]
    (by
      intro t ht
      simp only [List.mem_cons, List.not_mem_nil, or_false] at ht
      rcases ht with h1 | h1 | h1 <;> first
        | (injection h1 with h2; omega)
        | exact absurd h1 (by simp))).1

/-- C6: a call to `write` either goes through the local leader path or the
forwarding path.  When the node is leader (term > 0), the request is
serialized into an entry and submitted with the registered Completion Handle,
and the caller's result is whatever the Apply Pipeline resolves the handle
with.  When the node is not leader and a leader is known, the leader's API
endpoint is resolved from the peer set plus the port/SSL mapping, the request
is forwarded through the Request Channel, and the forwarding result is
returned as-is. -/
theorem write_submits_or_forwards (st : NodeState) (req : HttpReq) (handle : Nat)
    (applyResolve : Nat → String) (channel : String → String) :
    (0 < st.leaderTerm →
      write st req handle = WriteAction.submitLocal (serializeReq req) handle
      ∧ writeResponse st req handle applyResolve channel = applyResolve handle)
    ∧ (st.leaderTerm ≤ 0 → ∀ addr, st.leaderApiAddr = some addr →
      write st req handle =
        WriteAction.forward (get_leader_url_path addr req.path
          (if st.api_uses_ssl then "https" else "http"))
      ∧ writeResponse st req handle applyResolve channel =
        channel (get_leader_url_path addr req.path
          (if st.api_uses_ssl then "https" else "http"))) := by
  constructor
  · intro hpos
    have hw : write st req handle = WriteAction.submitLocal (serializeReq req) handle := by
      simp [write, hpos]
    exact ⟨hw, by simp [writeResponse, hw]⟩
  · intro hnp addr haddr
    have hw : write st req handle =
        WriteAction.forward (get_leader_url_path addr req.path
          (if st.api_uses_ssl then "https" else "http")) := by
      have hnl : ¬ st.leaderTerm > 0 := by omega
      simp [write, hnl, write_to_leader, haddr]
    exact ⟨hw, by simp [writeResponse, hw]⟩

/-- C6 witness: a leader at term 5 submits the serialized entry locally and
the caller gets the Apply Pipeline's result; a follower with the leader known
at `peer1:8108` forwards over http and returns the channel's result as-is. -/
theorem write_submits_or_forwards_witness :
    (write { leaderTerm := 5, leaderApiAddr := some "peer1:8108", api_uses_ssl := false }
        { method := "POST", path := "/docs", body := "d" } 9 =
      WriteAction.submitLocal
        (serializeReq { method := "POST", path := "/docs", body := "d" }) 9)
    ∧ (write { leaderTerm := -1, leaderApiAddr := some "peer1:8108", api_uses_ssl := false }
        { method := "POST", path := "/docs", body := "d" } 9 =
      WriteAction.forward "http://peer1:8108/docs") :=
  ⟨((write_submits_or_forwards
      { leaderTerm := 5, leaderApiAddr := some "peer1:8108", api_uses_ssl := false }
      { method := "POST", path := "/docs", body := "d" } 9
      (fun _ => "applied") (fun _ => "forwarded")).1 (by decide)).1,
    by
      have := ((write_submits_or_forwards
        { leaderTerm := -1, leaderApiAddr := some "peer1:8108", api_uses_ssl := false }
        { method := "POST", path := "/docs", body := "d" } 9
        (fun _ => "applied") (fun _ => "forwarded")).2 (by decide) "peer1:8108" rfl).1
      simpa [get_leader_url_path] using this⟩

/-- C8: `join` deletes the node handle exactly once and is idempotent.  The
first call joins the node, deletes the handle and sets it to null; a second
`join` (and a `join` after `shutdown`, which leaves the handle in place)
leaves the state unchanged and performs no further node calls, so there is no
second delete. -/
theorem join_idempotent_and_safe_after_shutdown (s : LifecycleState) :
    ((join_fn s).1.node = none)
    ∧ join_fn (join_fn s).1 = ((join_fn s).1, [])
    ∧ (∀ n, s.node = some n →
        (join_fn s).2 = [NodeCall.nodeJoin n.id, NodeCall.nodeDelete n.id])
    ∧ ((join_fn (shutdown_fn s).1).2 = (join_fn s).2)
    ∧ ((join_fn (shutdown_fn s).1).1.node = none) := by
  rcases s with ⟨node, sd⟩
  cases node with
  | none =>
    refine ⟨rfl, rfl, ?_, rfl, rfl⟩
    intro n hn
    exact absurd hn (by simp)
  | some n =>
    refine ⟨rfl, rfl, ?_, rfl, rfl⟩
    intro n' hn'
    simp only [Option.some.injEq] at hn'
    rw [hn']
    rfl

/-- C8 witness: with a live node handle 3, the first `join` emits the join and
delete calls and nulls the handle; the second emits nothing. -/
theorem join_idempotent_and_safe_after_shutdown_witness :
    ((join_fn { node := some { id := 3 }, shut_down := false }).2 =
      [NodeCall.nodeJoin 3, NodeCall.nodeDelete 3])
    ∧ join_fn (join_fn { node := some { id := 3 }, shut_down := false }).1 =
        ((join_fn { node := some { id := 3 }, shut_down := false }).1, []) :=
  ⟨(join_idempotent_and_safe_after_shutdown
      { node := some { id := 3 }, shut_down := false }).2.2.1 { id := 3 } rfl,
    (join_idempotent_and_safe_after_shutdown
      { node := some { id := 3 }, shut_down := false }).2.1⟩

/-- C9: `on_leader_start` stores the term and issues the synthetic
`POST /INIT_SNAPSHOT` dummy write if and only if the `create_init_db_snapshot`
flag passed at construction is set; when the flag is unset, becoming leader
performs no dummy write at all. -/
theorem init_snapshot_dummy_write_iff_flag (flag : Bool) (term : Int) :
    ((on_leader_start flag term).1 = term)
    ∧ (LeaderStartAction.dummyWrite "POST" "/INIT_SNAPSHOT" "INIT_SNAPSHOT" ∈
        (on_leader_start flag term).2 ↔ flag = true)
    ∧ (flag = false → (on_leader_start flag term).2 = []) := by
  cases flag <;> simp [on_leader_start]

/-- C9 witness: with the flag set the dummy write is issued; with it unset,
becoming leader at term 4 issues no write. -/
theorem init_snapshot_dummy_write_iff_flag_witness :
    (LeaderStartAction.dummyWrite "POST" "/INIT_SNAPSHOT" "INIT_SNAPSHOT" ∈
      (on_leader_start true 4).2)
    ∧ (on_leader_start false 4).2 = [] :=
  ⟨(init_snapshot_dummy_write_iff_flag true 4).2.1.mpr rfl,
    (init_snapshot_dummy_write_iff_flag false 4).2.2 rfl⟩

/-- C10: calling `shutdown` while the node handle is null is safe: the null
check skips the `node->shutdown` call (no call is made on any handle, so no
null handle is dereferenced) and the `shut_down` flag is still set, so
in-flight and subsequent operations observe the shutdown. -/
theorem shutdown_with_null_node_safe (s : LifecycleState) (h : s.node = none) :
    shutdown_fn s = ({ s with shut_down := true }, []) := by
  rcases s with ⟨node, sd⟩
  simp only at h
  rw [h]
  rfl

/-- C10 witness: shutdown on a state whose handle was already deleted makes no
node call and sets the flag. -/
theorem shutdown_with_null_node_safe_witness :
    shutdown_fn { node := none, shut_down := false } =
      ({ node := none, shut_down := true }, []) :=
  shutdown_with_null_node_safe { node := none, shut_down := false } rfl

end RaftServer
